import Mathlib

/-!
# Verification of the Alpha-Predator client core

Shallow embedding of the logic-bearing parts of the Alpha-Predator
frontend: the portfolio ledger (`PortfolioManager` components, both the
backend-persisted and the localStorage-persisted variant share the same
local computation logic), the three-step analysis flow controller
(`AnalysisFlow.vue`), the error classifier (`parseApiError` in the
dashboard component) and the trading-session predicate (`isMarketOpen`).

Monetary amounts and prices are modelled as rationals, share quantities
as integers.  Asynchronous remote calls are modelled by passing the
outcome of each call as an explicit argument; the number of outbound
requests an operation issues is returned alongside the new state.
-/

/-! ## Portfolio data model -/

/-- A held position, as in the `Position` interface of the portfolio
components.  Optional fields of the TS interface become `Option`;
the localStorage variant never assigns `id`. -/
structure Position where
  id : Option ℤ
  ts_code : String
  name : String
  quantity : ℤ
  cost_price : ℚ
  current_price : Option ℚ
  profit : Option ℚ
  profit_pct : Option ℚ
  weight : Option ℚ
deriving DecidableEq, Repr

/-- The `Portfolio` interface: total capital plus the position list. -/
structure Portfolio where
  total_capital : ℚ
  positions : List Position
deriving DecidableEq, Repr

/-- Outcome of one per-position quote fetch in `refreshQuotes`:
the fetch may throw (`fetchError`), return a non-ok HTTP response
(`notOk`), return an ok response without `success && data`
(`noData`), or deliver a price and a name (`ok`).  The quote name is a
string, with `""` standing for an absent/empty name (JS falsy). -/
inductive QuoteResult where
  | fetchError : QuoteResult
  | notOk : QuoteResult
  | noData : QuoteResult
  | ok : ℚ → String → QuoteResult
deriving DecidableEq, Repr

/-- Returns `true` on every outcome that does not carry fresh quote data. -/
def QuoteResult.failed : QuoteResult → Bool
  | .ok _ _ => false
  | _ => true

/-- Body of the per-position update inside the `refreshQuotes` loop:
on a successful fetch, `pos.current_price = data.data.price`,
`pos.name = data.data.name || pos.name`, then
`currentPrice = pos.current_price || pos.cost_price` (JS falsy: a price
of `0` falls back to the cost price) and profit / profit percentage are
recomputed; on any failed outcome the position is left untouched. -/
def applyQuote (pos : Position) (r : QuoteResult) : Position :=
  match r with
  | .ok price qname =>
      let newName := if qname = "" then pos.name else qname
      let currentPrice := if price = 0 then pos.cost_price else price
      { pos with
        current_price := some price,
        name := newName,
        profit := some ((currentPrice - pos.cost_price) * (pos.quantity : ℚ)),
        profit_pct := some (if 0 < pos.cost_price
          then (currentPrice / pos.cost_price - 1) * 100 else 0) }
  | _ => pos

/-- One step of `updateWeights`: `value = quantity * cost_price`,
`weight = total > 0 ? (value / total) * 100 : 0`. -/
def reweight (total : ℚ) (pos : Position) : Position :=
  { pos with
    weight := some (if 0 < total
      then ((pos.quantity : ℚ) * pos.cost_price / total) * 100 else 0) }

/-- Translation of `updateWeights`: recompute the weight of every position from the
current total capital. -/
def updateWeights (total : ℚ) (ps : List Position) : List Position :=
  ps.map (reweight total)

/-- The `for (const pos of positions)` loop of `refreshQuotes`: the
`i`-th iteration applies the outcome of the `i`-th awaited fetch. -/
def fetchLoop (fetch : ℕ → QuoteResult) : ℕ → List Position → List Position
  | _, [] => []
  | i, pos :: rest => applyQuote pos (fetch i) :: fetchLoop fetch (i + 1) rest

/-- Translation of `refreshQuotes`: early return on an empty position list; otherwise
every position gets its independent quote fetch applied, and only after
the whole loop has run is `updateWeights` applied to the full set.
The second component is the list of blocking alert popups raised during
the refresh: the source only `console.error`s on a failed fetch, so it
is always empty. -/
def refreshQuotes (fetch : ℕ → QuoteResult) (p : Portfolio) :
    Portfolio × List String :=
  if p.positions.isEmpty then (p, [])
  else
    ({ p with
        positions := updateWeights p.total_capital (fetchLoop fetch 0 p.positions) },
     [])

/-- JavaScript `Math.round`: round half away from zero; on the inputs
reached here (quantities of at least 100 divided by 100, hence
positive) this is `⌊x + 1/2⌋`. -/
def jsRound (x : ℚ) : ℤ := ⌊x + 1 / 2⌋

/-- Translation of `validateQuantity` on the entry controls: inputs below 100 snap to
100, other inputs not a multiple of 100 are rounded with
`Math.round(quantity / 100) * 100`. -/
def validateQuantity (q : ℤ) : ℤ :=
  if q < 100 then 100
  else if q % 100 ≠ 0 then jsRound ((q : ℚ) / 100) * 100
  else q

/-- The entry form of the portfolio component. -/
structure FormData where
  ts_code : String
  name : String
  quantity : ℤ
  cost_price : ℚ
deriving DecidableEq, Repr

/-- The three validation alerts `savePosition` can raise. -/
inductive SaveError where
  | emptyCode : SaveError
  | invalidQuantity : SaveError
  | invalidCostPrice : SaveError
deriving DecidableEq, Repr

/-- The position object literal built by `savePosition`: upper-cased
code, the name defaulting to the (raw) entered code, and no derived
fields at all. -/
def freshPosition (f : FormData) : Position :=
  { id := none,
    ts_code := f.ts_code.toUpper,
    name := if f.name = "" then f.ts_code else f.name,
    quantity := f.quantity,
    cost_price := f.cost_price,
    current_price := none, profit := none, profit_pct := none, weight := none }

/-- Translation of `savePosition` (localStorage variant; the backend variant runs the
identical validations before delegating persistence to the API):
validate code / quantity / cost price, then either overwrite the
position at the editing index wholesale or append, and finally
`updateWeights`. -/
def savePosition (f : FormData) (editingIndex : Option ℕ) (p : Portfolio) :
    Except SaveError Portfolio :=
  if f.ts_code = "" then .error .emptyCode
  else if f.quantity ≤ 0 ∨ f.quantity % 100 ≠ 0 then .error .invalidQuantity
  else if f.cost_price ≤ 0 then .error .invalidCostPrice
  else
    let position := freshPosition f
    let positions2 :=
      match editingIndex with
      | some i => p.positions.set i position
      | none => p.positions ++ [position]
    .ok { p with positions := updateWeights p.total_capital positions2 }

/-! ## Trading-session predicate -/

/-- Translation of `isMarketOpen` (identical in the dashboard and the portfolio
component): closed on Saturday (6) and Sunday (0); on weekdays open
iff `hours * 100 + minutes` lies in `[930, 1130]` or `[1300, 1500]`. -/
def isMarketOpen (day hours minutes : ℕ) : Bool :=
  if day = 0 ∨ day = 6 then false
  else
    let time := hours * 100 + minutes
    decide ((930 ≤ time ∧ time ≤ 1130) ∨ (1300 ≤ time ∧ time ≤ 1500))

/-- The spec's wording of the trading session: the closed clock
intervals `[09:30, 11:30]` and `[13:00, 15:00]`. -/
def sessionSpec (hours minutes : ℕ) : Prop :=
  ((hours = 9 ∧ 30 ≤ minutes) ∨ hours = 10 ∨ (hours = 11 ∧ minutes ≤ 30)) ∨
  (hours = 13 ∨ hours = 14 ∨ (hours = 15 ∧ minutes = 0))

instance (hours minutes : ℕ) : Decidable (sessionSpec hours minutes) := by
  unfold sessionSpec; infer_instance

/-! ## Analysis flow controller (`AnalysisFlow.vue`) -/

/-- A sector entry of a `SectorAnalysis`. -/
structure Sector where
  name : String
  change_pct : ℚ
  money_flow : ℚ
  hot_level : String
  signal : String
  reason : String
deriving DecidableEq, Repr

/-- A whole sector-analysis payload. -/
structure SectorAnalysis where
  market_summary : String
  market_direction : String
  sectors : List Sector
  risk_warning : String
  trade_date : String
deriving DecidableEq, Repr

/-- One recommended stock (`StockRec` interface). -/
structure StockRec where
  rank : ℤ
  ts_code : String
  name : String
  sector : String
  signal : String
  score : ℚ
  current_price : ℚ
  target_price : ℚ
  stop_loss_price : ℚ
  position_pct : ℚ
  hold_period : String
  entry_timing : String
  reasons : List String
  risk_factors : List String
deriving DecidableEq, Repr

/-- A stock-recommendations payload. -/
structure StockRecommendations where
  analysis_summary : String
  recommendations : List StockRec
  risk_warning : String
  trade_date : String
  selected_sectors : Option (List String)
deriving DecidableEq, Repr

/-- The risk-preference enum. -/
inductive RiskPref where
  | aggressive : RiskPref
  | balanced : RiskPref
  | conservative : RiskPref
deriving DecidableEq, Repr

/-- The reactive state of the `AnalysisFlow` component. -/
structure FlowState where
  currentStep : ℕ
  isLoading : Bool
  errorMessage : Option String
  sectorAnalysis : Option SectorAnalysis
  selectedSectors : Finset String
  stockRecommendations : Option StockRecommendations
  riskPreference : RiskPref

/-- Initial state of the component. -/
def initState : FlowState :=
  { currentStep := 1, isLoading := false, errorMessage := none,
    sectorAnalysis := none, selectedSectors := ∅,
    stockRecommendations := none, riskPreference := .balanced }

/-- Outcome of one remote request, as observed by the component: the
parsed payload on an ok response, or the message of the thrown `Error`
otherwise (for a non-ok response that is `data.detail || <default>`). -/
inductive FetchOutcome (α : Type) where
  | success : α → FetchOutcome α
  | failure : String → FetchOutcome α

/-- Computes `errorMessage.value = error.message || '请求失败'`. -/
def failMessage (m : String) : String := if m = "" then "请求失败" else m

/-- Translation of `analyzeSectors` (the spec's `requestScan`), modelled as an atomic
transition on the state given the request's outcome; the second
component counts the outbound requests issued (always one). -/
def analyzeSectors (outcome : FetchOutcome SectorAnalysis) (s : FlowState) :
    FlowState × ℕ :=
  match outcome with
  | .success a =>
      ({ s with isLoading := false, errorMessage := none,
                sectorAnalysis := some a, currentStep := 2 }, 1)
  | .failure m =>
      ({ s with isLoading := false, errorMessage := some (failMessage m) }, 1)

/-- Translation of `toggleSector`: unconditional flip of membership in the selection
set (the source has no check against the current analysis). -/
def toggleSector (name : String) (s : FlowState) : FlowState :=
  { s with selectedSectors :=
      if name ∈ s.selectedSectors then s.selectedSectors.erase name
      else insert name s.selectedSectors }

/-- The outbound payload of one `recommendStocks` request:
`{sectors: Array.from(selectedSectors), risk_preference}`. -/
structure RecommendRequest where
  sectors : Finset String
  risk_preference : RiskPref
deriving DecidableEq

/-- Translation of `recommendStocks` (the spec's `requestRecommendations`): empty
selection short-circuits with a validation message before any request
is issued; otherwise exactly one request goes out and the state is
updated according to its outcome.  The second component is the list of
issued requests. -/
def recommendStocks (outcome : FetchOutcome StockRecommendations)
    (s : FlowState) : FlowState × List RecommendRequest :=
  if s.selectedSectors = ∅ then
    ({ s with errorMessage := some "请至少选择一个板块" }, [])
  else
    match outcome with
    | .success data =>
        ({ s with isLoading := false, errorMessage := none,
                  stockRecommendations := some data, currentStep := 3 },
         [⟨s.selectedSectors, s.riskPreference⟩])
    | .failure m =>
        ({ s with isLoading := false, errorMessage := some (failMessage m) },
         [⟨s.selectedSectors, s.riskPreference⟩])

/-- Translation of `resetFlow`. -/
def resetFlow (s : FlowState) : FlowState :=
  { s with currentStep := 1, sectorAnalysis := none, selectedSectors := ∅,
           stockRecommendations := none, errorMessage := none }

/-- Translation of `goBack`. -/
def goBack (s : FlowState) : FlowState :=
  if s.currentStep = 3 then
    { s with currentStep := 2, stockRecommendations := none }
  else if s.currentStep = 2 then
    { s with currentStep := 1, sectorAnalysis := none, selectedSectors := ∅ }
  else s

/-- Translation of `setRiskPreference` (persistence to localStorage not modelled). -/
def setRiskPreference (v : RiskPref) (s : FlowState) : FlowState :=
  { s with riskPreference := v }

/-- The sector names offered by an analysis. -/
def sectorNames (a : SectorAnalysis) : Finset String :=
  (a.sectors.map Sector.name).toFinset

/-- States reachable through the component's UI.  Each constructor is
gated exactly as the template gates the corresponding buttons: the scan button
exists only at step 1, the sector cards and the recommend button only
at step 2 (cards only for sectors of the current analysis), back at
steps 2 and 3, reset at step 3, the risk picker at step 1. -/
inductive UIReachable : FlowState → Prop
  | init : UIReachable initState
  | scan (s : FlowState) (o : FetchOutcome SectorAnalysis) :
      UIReachable s → s.currentStep = 1 → UIReachable (analyzeSectors o s).1
  | toggle (s : FlowState) (a : SectorAnalysis) (name : String) :
      UIReachable s → s.currentStep = 2 → s.sectorAnalysis = some a →
      name ∈ sectorNames a → UIReachable (toggleSector name s)
  | recommend (s : FlowState) (o : FetchOutcome StockRecommendations) :
      UIReachable s → s.currentStep = 2 → UIReachable (recommendStocks o s).1
  | back (s : FlowState) :
      UIReachable s → (s.currentStep = 2 ∨ s.currentStep = 3) →
      UIReachable (goBack s)
  | reset (s : FlowState) :
      UIReachable s → s.currentStep = 3 → UIReachable (resetFlow s)
  | risk (s : FlowState) (v : RiskPref) :
      UIReachable s → s.currentStep = 1 → UIReachable (setRiskPreference v s)

/-- The selection-consistency invariant of the flow state. -/
def FlowInv (s : FlowState) : Prop :=
  (s.currentStep = 1 → s.selectedSectors = ∅ ∧ s.sectorAnalysis = none) ∧
  (∀ a, s.sectorAnalysis = some a → s.selectedSectors ⊆ sectorNames a) ∧
  (s.sectorAnalysis = none → s.selectedSectors = ∅)


theorem recommendStocks_empty (o : FetchOutcome StockRecommendations)
    (s : FlowState) (h : s.selectedSectors = ∅) :
    recommendStocks o s =
      ({ s with errorMessage := some "请至少选择一个板块" }, []) := by
  simp [recommendStocks, h]

theorem recommendStocks_success (d : StockRecommendations) (s : FlowState)
    (h : s.selectedSectors ≠ ∅) :
    recommendStocks (.success d) s =
      ({ s with isLoading := false, errorMessage := none,
                stockRecommendations := some d, currentStep := 3 },
       [⟨s.selectedSectors, s.riskPreference⟩]) := by
  simp [recommendStocks, h]

theorem recommendStocks_failure (m : String) (s : FlowState)
    (h : s.selectedSectors ≠ ∅) :
    recommendStocks (.failure m) s =
      ({ s with isLoading := false, errorMessage := some (failMessage m) },
       [⟨s.selectedSectors, s.riskPreference⟩]) := by
  simp [recommendStocks, h]

/-- Every UI-reachable flow state satisfies the selection invariant. -/
theorem flowInv_of_uiReachable (s : FlowState) (h : UIReachable s) : FlowInv s := by
  induction h with
  | init =>
      refine ⟨fun _ => ⟨rfl, rfl⟩, fun a ha => ?_, fun _ => rfl⟩
      simp [initState] at ha
  | scan s o hr hstep ih =>
      obtain ⟨hsel, hana⟩ := ih.1 hstep
      cases o with
      | success a =>
          refine ⟨fun hc => ?_, fun b hb => ?_, fun hb => ?_⟩
          · simp [analyzeSectors] at hc
          · simp [analyzeSectors] at hb
            subst hb
            simp [analyzeSectors, hsel]
          · simp [analyzeSectors] at hb
      | failure m =>
          refine ⟨fun _ => ⟨?_, ?_⟩, fun b hb => ?_, fun _ => ?_⟩
          · simpa [analyzeSectors] using hsel
          · simpa [analyzeSectors] using hana
          · simp [analyzeSectors, hana] at hb
          · simpa [analyzeSectors] using hsel
  | toggle s a name hr hstep hana hname ih =>
      refine ⟨fun hc => ?_, fun b hb => ?_, fun hb => ?_⟩
      · simp [toggleSector] at hc
        omega
      · simp [toggleSector] at hb
        have hba : a = b := by
          rw [hana] at hb
          exact Option.some.inj hb
        subst hba
        simp only [toggleSector]
        by_cases hmem : name ∈ s.selectedSectors
        · simp only [hmem, if_pos]
          exact (Finset.erase_subset _ _).trans (ih.2.1 a hana)
        · simp only [hmem, if_neg, not_false_iff]
          exact Finset.insert_subset hname (ih.2.1 a hana)
      · simp [toggleSector, hana] at hb
  | recommend s o hr hstep ih =>
      obtain ⟨h1, h2, h3⟩ := ih
      by_cases hempty : s.selectedSectors = ∅
      · rw [recommendStocks_empty o s hempty]
        exact ⟨fun hc => absurd (show s.currentStep = 1 from hc) (by omega),
               fun b hb => h2 b hb, fun hb => h3 hb⟩
      · cases o with
        | success d =>
            rw [recommendStocks_success d s hempty]
            exact ⟨fun hc => absurd (show (3 : ℕ) = 1 from hc) (by omega),
                   fun b hb => h2 b hb, fun hb => h3 hb⟩
        | failure m =>
            rw [recommendStocks_failure m s hempty]
            exact ⟨fun hc => h1 hc, fun b hb => h2 b hb, fun hb => h3 hb⟩
  | back s hr hstep ih =>
      obtain ⟨h1, h2, h3⟩ := ih
      rcases hstep with h2' | h3'
      · refine ⟨fun _ => ⟨?_, ?_⟩, fun b hb => ?_, fun _ => ?_⟩
        · simp [goBack, h2']
        · simp [goBack, h2']
        · simp [goBack, h2'] at hb
        · simp [goBack, h2']
      · refine ⟨fun hc => ?_, fun b hb => ?_, fun hb => ?_⟩
        · simp [goBack, h3'] at hc
        · simp [goBack, h3'] at hb ⊢
          exact h2 b hb
        · simp [goBack, h3'] at hb ⊢
          exact h3 hb
  | reset s hr hstep ih =>
      refine ⟨fun _ => ⟨?_, ?_⟩, fun b hb => ?_, fun _ => ?_⟩
      · simp [resetFlow]
      · simp [resetFlow]
      · simp [resetFlow] at hb
      · simp [resetFlow]
  | risk s v hr hstep ih =>
      obtain ⟨h1, h2, h3⟩ := ih
      refine ⟨fun hc => ?_, fun b hb => ?_, fun hb => ?_⟩
      · simp [setRiskPreference] at hc ⊢
        exact h1 hc
      · simp [setRiskPreference] at hb ⊢
        exact h2 b hb
      · simp [setRiskPreference] at hb ⊢
        exact h3 hb

/-! ## Error classifier (`parseApiError` in the dashboard) -/

/-- Checks whether the first list is a prefix of the second list (character-wise). -/
def charsPrefix : List Char → List Char → Bool
  | [], _ => true
  | _ :: _, [] => false
  | c :: cs, d :: ds => c == d && charsPrefix cs ds

/-- Occurrence of `pat` as a contiguous run somewhere in `s`. -/
def charsInfix (pat : List Char) : List Char → Bool
  | [] => charsPrefix pat []
  | c :: rest => charsPrefix pat (c :: rest) || charsInfix pat rest

/-- JavaScript `s.includes(pat)`. -/
def strContains (s pat : String) : Bool := charsInfix pat.toList s.toList

/-- The raw failure payload `parseApiError` inspects: a textual
`detail`, and/or a `success` flag with narrative `content` (absent
fields are `none`; empty strings are JS-falsy). -/
structure ApiErrorPayload where
  detail : Option String
  success : Option Bool
  content : Option String
deriving DecidableEq, Repr

/-- The `{title, message, details?}` alert descriptor. -/
structure AlertContent where
  title : String
  message : String
  details : Option String
deriving DecidableEq, Repr

/-- The remediation text of the quota branch of `parseApiError`. -/
def quotaDetails : String :=
  "解决方案：\n1. 等待配额重置（通常每日重置）\n2. 升级到 Google Cloud 付费计划\n3. 在 .env 中配置 OpenAI API Key 并切换提供商"

/-- The remediation text of the data-source-permission branch. -/
def permissionDetails : String :=
  "解决方案：\n1. 访问 tushare.pro 登录您的账户\n2. 通过完成任务积累积分\n3. 或升级到付费会员获取更多权限"

/-- The alert of the quota branch of `parseApiError`. -/
def quotaAlert : AlertContent :=
  { title := "🚫 API 配额已用尽",
    message := "Gemini API 免费配额已达到限制。",
    details := some quotaDetails }

/-- The `success:false` fallback of `parseApiError`: quota markers in
the narrative content give a second quota alert; anything else gives
the default alert. -/
def parseApiErrorNoDetail (data : ApiErrorPayload) (defaultMessage : String) :
    AlertContent :=
  match data.success, data.content with
  | some false, some c =>
      if c ≠ "" ∧ (strContains c "429" = true ∨ strContains c "quota" = true) then
        { title := "🚫 API 配额已用尽",
          message := "LLM 服务配额不足",
          details := some (c.take 500) }
      else { title := "❌ 操作失败", message := defaultMessage, details := none }
  | _, _ => { title := "❌ 操作失败", message := defaultMessage, details := none }

/-- Translation of `parseApiError`: quota markers in `detail` first, then provider
permission markers, then the generic truncated-detail alert, then the
`success:false` narrative check, then the caller-supplied default. -/
def parseApiError (data : ApiErrorPayload) (defaultMessage : String) :
    AlertContent :=
  match data.detail with
  | some d =>
      if d = "" then parseApiErrorNoDetail data defaultMessage
      else if strContains d "429" || strContains d "quota" || strContains d "exceeded" then
        quotaAlert
      else if strContains d "没有接口访问权限" || strContains d "tushare.pro" then
        { title := "🔒 数据源权限不足",
          message := "Tushare 账户积分不足，无法访问此数据接口。",
          details := some permissionDetails }
      else
        { title := "⚠️ 请求失败",
          message := d.take 200,
          details := if 200 < d.length then some d else none }
  | none => parseApiErrorNoDetail data defaultMessage

/-! ## Index-wise description of `refreshQuotes` -/

theorem fetchLoop_length (fetch : ℕ → QuoteResult) (k : ℕ) (ps : List Position) :
    (fetchLoop fetch k ps).length = ps.length := by
  induction ps generalizing k with
  | nil => rfl
  | cons head tail ih => simp [fetchLoop, ih]

theorem fetchLoop_getElem (fetch : ℕ → QuoteResult) (k : ℕ) (ps : List Position)
    (i : ℕ) :
    (fetchLoop fetch k ps)[i]? =
      (ps[i]?).map (fun pos => applyQuote pos (fetch (k + i))) := by
  induction ps generalizing k i with
  | nil => simp [fetchLoop]
  | cons head tail ih =>
      cases i with
      | zero => simp [fetchLoop]
      | succ n =>
          simp only [fetchLoop, List.getElem?_cons_succ]
          rw [ih (k + 1) n]
          have harith : k + 1 + n = k + (n + 1) := by omega
          rw [harith]

theorem refreshQuotes_getElem (fetch : ℕ → QuoteResult) (p : Portfolio) (i : ℕ) :
    (refreshQuotes fetch p).1.positions[i]? =
      (p.positions[i]?).map
        (fun pos => reweight p.total_capital (applyQuote pos (fetch i))) := by
  unfold refreshQuotes
  by_cases h : p.positions.isEmpty
  · have : p.positions = [] := List.isEmpty_iff.mp h
    simp [h, this]
  · simp only [h, if_neg, Bool.false_eq_true, not_false_iff]
    simp only [updateWeights, List.getElem?_map, fetchLoop_getElem, Nat.zero_add]
    cases p.positions[i]? <;> rfl

theorem refreshQuotes_length (fetch : ℕ → QuoteResult) (p : Portfolio) :
    (refreshQuotes fetch p).1.positions.length = p.positions.length := by
  unfold refreshQuotes
  by_cases h : p.positions.isEmpty
  · simp [h]
  · simp [h, updateWeights, fetchLoop_length]

theorem refreshQuotes_no_alert (fetch : ℕ → QuoteResult) (p : Portfolio) :
    (refreshQuotes fetch p).2 = [] := by
  unfold refreshQuotes
  by_cases h : p.positions.isEmpty <;> simp [h]

theorem applyQuote_failed (pos : Position) (r : QuoteResult)
    (h : r.failed = true) : applyQuote pos r = pos := by
  cases r with
  | ok price qname => simp [QuoteResult.failed] at h
  | fetchError => rfl
  | notOk => rfl
  | noData => rfl

theorem applyQuote_statics (pos : Position) (r : QuoteResult) :
    (applyQuote pos r).quantity = pos.quantity ∧
    (applyQuote pos r).cost_price = pos.cost_price := by
  cases r <;> simp [applyQuote]

/-! ## Demo data for concrete instantiations -/

def demoPositionA : Position :=
  { id := none, ts_code := "600519.SH", name := "贵州茅台", quantity := 100,
    cost_price := 1500, current_price := some 1600, profit := some 10000,
    profit_pct := some (20 / 3), weight := some 15 }

def demoPositionB : Position :=
  { id := none, ts_code := "000001.SZ", name := "平安银行", quantity := 200,
    cost_price := 10, current_price := some 11, profit := some 200,
    profit_pct := some 10, weight := some 2 }

def demoPortfolio : Portfolio :=
  { total_capital := 100000, positions := [demoPositionA, demoPositionB] }

def demoHeldPortfolio : Portfolio :=
  { total_capital := 100000, positions := [demoPositionB] }

/-- A quote batch in which the first fetch succeeds and every other
fetch throws. -/
def demoFetch : ℕ → QuoteResult
  | 0 => QuoteResult.ok 1620 "贵州茅台"
  | _ => QuoteResult.fetchError

def demoSector : Sector :=
  { name := "半导体", change_pct := 5.2, money_flow := 120, hot_level := "高",
    signal := "看多", reason := "资金流入明显" }

def demoAnalysis : SectorAnalysis :=
  { market_summary := "市场震荡上行", market_direction := "看多",
    sectors := [demoSector], risk_warning := "注意回调风险",
    trade_date := "2025-01-01" }

/-- The state right after a successful scan from the initial state. -/
def demoSelectingState : FlowState :=
  (analyzeSectors (FetchOutcome.success demoAnalysis) initState).1

def demoEditForm : FormData :=
  { ts_code := "000001.sz", name := "平安银行", quantity := 200, cost_price := 10 }

def demoValidForm : FormData :=
  { ts_code := "600519.sh", name := "", quantity := 100, cost_price := 1500 }

def demoQuotaPayload : ApiErrorPayload :=
  { detail := some "Resource exhausted: 429 quota exceeded for model",
    success := none, content := none }

/-! ## Claims -/

/-- Claim C1 — in every `refreshQuotes` batch the whole loop completes:
a position whose fetch succeeded gets `current_price`, `profit` and
`profit_pct` recomputed from the new price, a position whose fetch
failed (threw, non-ok response, or non-success payload) keeps all three
unchanged, no blocking alert is raised, and the weight of every
position of the set is recomputed by the final `updateWeights` pass. -/
theorem refreshQuotes_failure_isolation (fetch : ℕ → QuoteResult)
    (p : Portfolio) (i : ℕ) (pos : Position)
    (hp : p.positions[i]? = some pos) :
    (refreshQuotes fetch p).2 = [] ∧
    (refreshQuotes fetch p).1.positions.length = p.positions.length ∧
    (∀ price qname, fetch i = QuoteResult.ok price qname →
      ∃ r, (refreshQuotes fetch p).1.positions[i]? = some r ∧
        r.current_price = some price ∧
        r.profit = some (((if price = 0 then pos.cost_price else price) -
          pos.cost_price) * (pos.quantity : ℚ)) ∧
        r.profit_pct = some (if 0 < pos.cost_price
          then ((if price = 0 then pos.cost_price else price) / pos.cost_price - 1) * 100
          else 0)) ∧
    ((fetch i).failed = true →
      ∃ r, (refreshQuotes fetch p).1.positions[i]? = some r ∧
        r.current_price = pos.current_price ∧ r.profit = pos.profit ∧
        r.profit_pct = pos.profit_pct) ∧
    (∀ (j : ℕ) (qp : Position), p.positions[j]? = some qp →
      ∃ r : Position, (refreshQuotes fetch p).1.positions[j]? = some r ∧
        r.weight = some (if 0 < p.total_capital
          then ((qp.quantity : ℚ) * qp.cost_price / p.total_capital) * 100 else 0)) := by
  refine ⟨refreshQuotes_no_alert fetch p, refreshQuotes_length fetch p, ?_, ?_, ?_⟩
  · intro price qname hf
    refine ⟨reweight p.total_capital (applyQuote pos (fetch i)), ?_, ?_, ?_, ?_⟩
    · rw [refreshQuotes_getElem, hp]
      rfl
    · rw [hf]
      simp [applyQuote, reweight]
    · rw [hf]
      simp [applyQuote, reweight]
    · rw [hf]
      simp [applyQuote, reweight]
  · intro hfail
    refine ⟨reweight p.total_capital (applyQuote pos (fetch i)), ?_, ?_, ?_, ?_⟩
    · rw [refreshQuotes_getElem, hp]
      rfl
    · rw [applyQuote_failed pos (fetch i) hfail]
      simp [reweight]
    · rw [applyQuote_failed pos (fetch i) hfail]
      simp [reweight]
    · rw [applyQuote_failed pos (fetch i) hfail]
      simp [reweight]
  · intro j qp hq
    refine ⟨reweight p.total_capital (applyQuote qp (fetch j)), ?_, ?_⟩
    · rw [refreshQuotes_getElem, hq]
      rfl
    · have hs := applyQuote_statics qp (fetch j)
      simp [reweight, hs.1, hs.2]

theorem refreshQuotes_failure_isolation_witness :
    (refreshQuotes demoFetch demoPortfolio).2 = [] ∧
    (refreshQuotes demoFetch demoPortfolio).1.positions.length =
      demoPortfolio.positions.length :=
  ⟨(refreshQuotes_failure_isolation demoFetch demoPortfolio 0 demoPositionA rfl).1,
   (refreshQuotes_failure_isolation demoFetch demoPortfolio 0 demoPositionA rfl).2.1⟩

/-- Claim C10 — a successful quote fetch also overwrites the position's
`name` with the name carried by the quote payload whenever that name is
non-empty; the stored name survives only when the payload carries no
name (empty string, JS-falsy). -/
theorem refreshQuotes_overwrites_name (fetch : ℕ → QuoteResult)
    (p : Portfolio) (i : ℕ) (pos : Position) (hp : p.positions[i]? = some pos)
    (price : ℚ) (qname : String) (hf : fetch i = QuoteResult.ok price qname) :
    ∃ r, (refreshQuotes fetch p).1.positions[i]? = some r ∧
      (qname ≠ "" → r.name = qname) ∧
      (qname = "" → r.name = pos.name) := by
  refine ⟨reweight p.total_capital (applyQuote pos (fetch i)), ?_, ?_, ?_⟩
  · rw [refreshQuotes_getElem, hp]
    rfl
  · intro hq
    rw [hf]
    simp [applyQuote, reweight, hq]
  · intro hq
    rw [hf]
    simp [applyQuote, reweight, hq]

theorem refreshQuotes_overwrites_name_witness :
    ∃ r, (refreshQuotes demoFetch demoPortfolio).1.positions[0]? = some r ∧
      ("贵州茅台" ≠ "" → r.name = "贵州茅台") ∧
      ("贵州茅台" = "" → r.name = demoPositionA.name) :=
  refreshQuotes_overwrites_name demoFetch demoPortfolio 0 demoPositionA rfl
    1620 "贵州茅台" rfl

/-- Claim C9 — the session predicate is false on Saturday and Sunday
and, on weekdays with a valid minute count, true exactly on the closed
clock intervals [09:30, 11:30] and [13:00, 15:00]. -/
theorem isMarketOpen_session_spec (day hours minutes : ℕ) (hm : minutes ≤ 59) :
    ((day = 0 ∨ day = 6) → isMarketOpen day hours minutes = false) ∧
    (day ≠ 0 → day ≠ 6 →
      (isMarketOpen day hours minutes = true ↔ sessionSpec hours minutes)) := by
  constructor
  · intro h
    simp [isMarketOpen, h]
  · intro h0 h6
    have hcond : ¬(day = 0 ∨ day = 6) := by tauto
    unfold isMarketOpen
    rw [if_neg hcond]
    rw [decide_eq_true_eq]
    unfold sessionSpec
    omega

theorem isMarketOpen_session_spec_witness :
    (30 : ℕ) ≤ 59 ∧ (isMarketOpen 1 9 30 = true ↔ sessionSpec 9 30) :=
  ⟨by decide,
   (isMarketOpen_session_spec 1 9 30 (by decide)).2 (by decide) (by decide)⟩

/-- Claim C7 — a textual `detail` containing "429", "quota" or
"exceeded" is classified as the quota alert with a fixed non-empty
remediation text, independently of the caller-supplied default message
and before the permission and generic branches are consulted. -/
theorem parseApiError_quota_priority (data : ApiErrorPayload) (dm : String)
    (d : String) (hd : data.detail = some d)
    (hmark : strContains d "429" = true ∨ strContains d "quota" = true ∨
             strContains d "exceeded" = true) :
    parseApiError data dm = quotaAlert ∧
    (∀ dm2, parseApiError data dm2 = quotaAlert) ∧
    quotaAlert.details = some quotaDetails ∧ quotaDetails ≠ "" := by
  have hne : d ≠ "" := by
    rintro rfl
    rcases hmark with h | h | h <;>
      simp [strContains, charsInfix, charsPrefix] at h
  have hcond : (strContains d "429" || strContains d "quota" ||
      strContains d "exceeded") = true := by
    rcases hmark with h | h | h <;> simp [h]
  have key : ∀ dm2, parseApiError data dm2 = quotaAlert := by
    intro dm2
    unfold parseApiError
    rw [hd]
    simp [hne, hcond]
  refine ⟨key dm, key, rfl, by decide⟩

theorem parseApiError_quota_priority_witness :
    demoQuotaPayload.detail =
      some "Resource exhausted: 429 quota exceeded for model" ∧
    parseApiError demoQuotaPayload "板块分析失败" = quotaAlert :=
  ⟨rfl,
   (parseApiError_quota_priority demoQuotaPayload "板块分析失败" _ rfl
      (Or.inl (by decide))).1⟩

/-- Claim C5 counterexample — the entry-control normalization uses
JavaScript `Math.round`, which rounds halves up: an input of 250
normalizes to 300, not to 200 as the claim states. -/
theorem validateQuantity_250_rounds_up :
    validateQuantity 250 = 300 ∧ validateQuantity 250 ≠ 200 := by
  have hval : validateQuantity 250 = 300 := by
    unfold validateQuantity jsRound
    rw [if_neg (by decide), if_pos (by decide)]
    have hfloor : ((250 : ℤ) : ℚ) / 100 + 1 / 2 = ((3 : ℤ) : ℚ) := by norm_num
    rw [hfloor, Int.floor_intCast]
    decide
  exact ⟨hval, by rw [hval]; decide⟩

/-- Claim C5 amended — normalization snaps to the nearest multiple of
100 with halves rounding up (so 250 becomes 300), every input below
100 becomes 100, and a zero or negative quantity submitted to
`savePosition` is rejected with the quantity validation error. -/
theorem validateQuantity_amended (q : ℤ) :
    (q < 100 → validateQuantity q = 100) ∧
    (100 ≤ q → validateQuantity q % 100 = 0 ∧
      validateQuantity q - 50 ≤ q ∧ q < validateQuantity q + 50) ∧
    (∀ f p idx, f.ts_code ≠ "" → f.quantity ≤ 0 →
      savePosition f idx p = Except.error SaveError.invalidQuantity) := by
  refine ⟨fun h => by simp [validateQuantity, h], fun h => ?_,
          fun f p idx hc hq => ?_⟩
  · by_cases hmod : q % 100 = 0
    · have hval : validateQuantity q = q := by
        simp [validateQuantity, not_lt.mpr h, hmod]
      rw [hval]
      omega
    · have hval : validateQuantity q = jsRound ((q : ℚ) / 100) * 100 := by
        simp [validateQuantity, not_lt.mpr h, hmod]
      have h1 : ((jsRound ((q : ℚ) / 100) : ℚ)) ≤ (q : ℚ) / 100 + 1 / 2 :=
        Int.floor_le _
      have h2 : (q : ℚ) / 100 + 1 / 2 < (jsRound ((q : ℚ) / 100) : ℚ) + 1 :=
        Int.lt_floor_add_one _
      rw [hval]
      refine ⟨by omega, ?_, ?_⟩
      · qify
        linarith
      · qify
        linarith
  · unfold savePosition
    rw [if_neg hc, if_pos (Or.inl hq)]

theorem validateQuantity_amended_witness :
    (100 : ℤ) ≤ 250 ∧ (validateQuantity 250 % 100 = 0 ∧
      validateQuantity 250 - 50 ≤ 250 ∧ (250 : ℤ) < validateQuantity 250 + 50) :=
  ⟨by decide, (validateQuantity_amended 250).2.1 (by decide)⟩

/-- Claim C2 — from a reachable step-1 state, a successful scan
replaces the analysis wholesale with the returned payload, leaves the
selection set empty, issues one request, and moves to step 2; a
non-success outcome surfaces an error message and keeps the step and
the analysis unchanged. -/
theorem requestScan_success_failure (s : FlowState) (hr : UIReachable s)
    (h1 : s.currentStep = 1) (a : SectorAnalysis) (m : String) :
    ((analyzeSectors (FetchOutcome.success a) s).1.sectorAnalysis = some a ∧
     (analyzeSectors (FetchOutcome.success a) s).1.selectedSectors = ∅ ∧
     (analyzeSectors (FetchOutcome.success a) s).1.currentStep = 2 ∧
     (analyzeSectors (FetchOutcome.success a) s).2 = 1) ∧
    ((analyzeSectors (FetchOutcome.failure m) s).1.currentStep = s.currentStep ∧
     (analyzeSectors (FetchOutcome.failure m) s).1.sectorAnalysis = s.sectorAnalysis ∧
     ∃ e, (analyzeSectors (FetchOutcome.failure m) s).1.errorMessage = some e) := by
  have hsel : s.selectedSectors = ∅ := ((flowInv_of_uiReachable s hr).1 h1).1
  exact ⟨⟨rfl, hsel, rfl, rfl⟩, rfl, rfl, ⟨failMessage m, rfl⟩⟩

theorem requestScan_success_failure_witness :
    (analyzeSectors (FetchOutcome.success demoAnalysis) initState).1.sectorAnalysis =
      some demoAnalysis ∧
    (analyzeSectors (FetchOutcome.success demoAnalysis) initState).1.currentStep = 2 :=
  ⟨((requestScan_success_failure initState UIReachable.init rfl demoAnalysis "x").1).1,
   ((requestScan_success_failure initState UIReachable.init rfl demoAnalysis "x").1).2.2.1⟩

/-- Claim C3 — in the selecting step, an empty selection set makes
`recommendStocks` fail with the local validation message while issuing
no request and leaving step, analysis, selection and recommendations
unchanged; a non-empty selection issues exactly one request carrying
the selection and the risk preference. -/
theorem requestRecommendations_validation (s : FlowState)
    (hstep2 : s.currentStep = 2) (o : FetchOutcome StockRecommendations) :
    (s.selectedSectors = ∅ →
      (recommendStocks o s).2 = [] ∧
      (recommendStocks o s).1.currentStep = s.currentStep ∧
      (recommendStocks o s).1.sectorAnalysis = s.sectorAnalysis ∧
      (recommendStocks o s).1.selectedSectors = s.selectedSectors ∧
      (recommendStocks o s).1.stockRecommendations = s.stockRecommendations ∧
      (recommendStocks o s).1.errorMessage = some "请至少选择一个板块") ∧
    (s.selectedSectors ≠ ∅ →
      (recommendStocks o s).2 = [⟨s.selectedSectors, s.riskPreference⟩]) := by
  constructor
  · intro hempty
    rw [recommendStocks_empty o s hempty]
    exact ⟨rfl, rfl, rfl, rfl, rfl, rfl⟩
  · intro hne
    cases o with
    | success d => rw [recommendStocks_success d s hne]
    | failure m => rw [recommendStocks_failure m s hne]

theorem requestRecommendations_validation_witness :
    (recommendStocks (FetchOutcome.failure "网络错误") demoSelectingState).2 = [] ∧
    (recommendStocks (FetchOutcome.failure "网络错误") demoSelectingState).1.currentStep =
      demoSelectingState.currentStep :=
  ⟨((requestRecommendations_validation demoSelectingState rfl
      (FetchOutcome.failure "网络错误")).1 rfl).1,
   ((requestRecommendations_validation demoSelectingState rfl
      (FetchOutcome.failure "网络错误")).1 rfl).2.1⟩

/-- Claim C4 — when a scan or a recommendation request fails, the
controller keeps its pre-call step, analysis, selection set and stored
recommendations, so the operation can be retried from the same state. -/
theorem remote_failure_preserves_state (s : FlowState) (m : String) :
    ((analyzeSectors (FetchOutcome.failure m) s).1.currentStep = s.currentStep ∧
     (analyzeSectors (FetchOutcome.failure m) s).1.sectorAnalysis = s.sectorAnalysis ∧
     (analyzeSectors (FetchOutcome.failure m) s).1.selectedSectors = s.selectedSectors ∧
     (analyzeSectors (FetchOutcome.failure m) s).1.stockRecommendations =
       s.stockRecommendations) ∧
    ((recommendStocks (FetchOutcome.failure m) s).1.currentStep = s.currentStep ∧
     (recommendStocks (FetchOutcome.failure m) s).1.sectorAnalysis = s.sectorAnalysis ∧
     (recommendStocks (FetchOutcome.failure m) s).1.selectedSectors = s.selectedSectors ∧
     (recommendStocks (FetchOutcome.failure m) s).1.stockRecommendations =
       s.stockRecommendations) := by
  refine ⟨⟨rfl, rfl, rfl, rfl⟩, ?_⟩
  by_cases hempty : s.selectedSectors = ∅
  · rw [recommendStocks_empty _ s hempty]
    exact ⟨rfl, rfl, rfl, rfl⟩
  · rw [recommendStocks_failure m s hempty]
    exact ⟨rfl, rfl, rfl, rfl⟩

/-- Claim C6 counterexample — `toggleSector` with a name that is not
among the current analysis's sector names is not a no-op: the source
has no defensive membership check, so the foreign name is inserted. -/
theorem toggleSector_foreign_not_noop :
    "房地产" ∉ sectorNames demoAnalysis ∧
    demoSelectingState.sectorAnalysis = some demoAnalysis ∧
    (toggleSector "房地产" demoSelectingState).selectedSectors ≠
      demoSelectingState.selectedSectors := by
  refine ⟨by decide, rfl, by decide⟩

/-- Claim C6 amended — `toggleSector` flips membership unconditionally,
with no guard on the current analysis; restricted to the toggles the UI
can actually issue (names of the current analysis, step 2 only), every
reachable state keeps the selection a subset of the current analysis's
sector names, and empty when there is no analysis. -/
theorem selection_subset_amended (s : FlowState) (hr : UIReachable s)
    (name : String) :
    ((toggleSector name s).selectedSectors =
      if name ∈ s.selectedSectors then s.selectedSectors.erase name
      else insert name s.selectedSectors) ∧
    (∀ a, s.sectorAnalysis = some a → s.selectedSectors ⊆ sectorNames a) ∧
    (s.sectorAnalysis = none → s.selectedSectors = ∅) :=
  ⟨rfl, (flowInv_of_uiReachable s hr).2.1, (flowInv_of_uiReachable s hr).2.2⟩

theorem selection_subset_amended_witness :
    ((toggleSector "半导体" initState).selectedSectors =
      if "半导体" ∈ initState.selectedSectors then
        initState.selectedSectors.erase "半导体"
      else insert "半导体" initState.selectedSectors) ∧
    (initState.sectorAnalysis = none → initState.selectedSectors = ∅) :=
  ⟨(selection_subset_amended initState UIReachable.init "半导体").1,
   (selection_subset_amended initState UIReachable.init "半导体").2.2⟩

/-- Claim C8 counterexample — editing a position through `savePosition`
replaces the stored object wholesale with a record holding only the new
static fields: the previously derived `current_price` and `profit` are
cleared to absent instead of preserved. -/
theorem savePosition_edit_drops_derived :
    demoPositionB.current_price = some 11 ∧ demoPositionB.profit = some 200 ∧
    (savePosition demoEditForm (some 0) demoHeldPortfolio).toOption.map
      (fun p => p.positions.map Position.current_price) = some [none] ∧
    (savePosition demoEditForm (some 0) demoHeldPortfolio).toOption.map
      (fun p => p.positions.map Position.profit) = some [none] := by
  refine ⟨rfl, rfl, ?_, ?_⟩ <;> rfl

/-- Claim C8 amended — a successful edit replaces the position at the
editing index wholesale by `freshPosition` (uppercased code, defaulted
name, new quantity and cost price, all derived fields absent) with its
weight recomputed; all other positions keep every field except the
recomputed weight.  A successful add appends the fresh position and
leaves existing positions unchanged except for the recomputed weight. -/
theorem savePosition_frame_amended (f : FormData) (p : Portfolio) (i : ℕ)
    (hc : f.ts_code ≠ "") (hq : 0 < f.quantity) (hm : f.quantity % 100 = 0)
    (hcp : 0 < f.cost_price) (hi : i < p.positions.length) :
    (∃ p1, savePosition f (some i) p = Except.ok p1 ∧
      p1.total_capital = p.total_capital ∧
      p1.positions.length = p.positions.length ∧
      p1.positions[i]? = some (reweight p.total_capital (freshPosition f)) ∧
      ∀ j, j ≠ i →
        p1.positions[j]? = (p.positions[j]?).map (reweight p.total_capital)) ∧
    (∃ p2, savePosition f none p = Except.ok p2 ∧
      p2.positions.length = p.positions.length + 1 ∧
      p2.positions[p.positions.length]? =
        some (reweight p.total_capital (freshPosition f)) ∧
      ∀ j, j < p.positions.length →
        p2.positions[j]? = (p.positions[j]?).map (reweight p.total_capital)) := by
  have hq2 : ¬(f.quantity ≤ 0 ∨ f.quantity % 100 ≠ 0) := by omega
  have hcp2 : ¬(f.cost_price ≤ 0) := not_le.mpr hcp
  constructor
  · refine ⟨{ p with positions :=
        updateWeights p.total_capital (p.positions.set i (freshPosition f)) },
      ?_, rfl, ?_, ?_, ?_⟩
    · unfold savePosition
      rw [if_neg hc, if_neg hq2, if_neg hcp2]
    · simp [updateWeights]
    · have hi2 : i < (List.map (reweight p.total_capital) p.positions).length := by
        simpa using hi
      simp [updateWeights, List.getElem?_set_self hi2]
    · intro j hj
      simp [updateWeights, List.getElem?_map, List.getElem?_set_ne (Ne.symm hj)]
  · refine ⟨{ p with positions :=
        updateWeights p.total_capital (p.positions ++ [freshPosition f]) },
      ?_, ?_, ?_, ?_⟩
    · unfold savePosition
      rw [if_neg hc, if_neg hq2, if_neg hcp2]
    · simp [updateWeights]
    · simp [updateWeights, List.getElem?_map, List.getElem?_concat_length]
    · intro j hj
      have hj2 : j < (List.map (reweight p.total_capital) p.positions).length := by
        simpa using hj
      simp only [updateWeights, List.map_append, List.map_cons, List.map_nil]
      rw [List.getElem?_append_left hj2, List.getElem?_map]

theorem savePosition_frame_amended_witness :
    ∃ p1, savePosition demoValidForm (some 0) demoHeldPortfolio = Except.ok p1 ∧
      p1.total_capital = demoHeldPortfolio.total_capital ∧
      p1.positions.length = demoHeldPortfolio.positions.length ∧
      p1.positions[0]? = some (reweight demoHeldPortfolio.total_capital
        (freshPosition demoValidForm)) ∧
      ∀ j, j ≠ 0 → p1.positions[j]? =
        (demoHeldPortfolio.positions[j]?).map
          (reweight demoHeldPortfolio.total_capital) :=
  (savePosition_frame_amended demoValidForm demoHeldPortfolio 0 (by decide)
    (by decide) (by decide) (by decide) (by decide)).1
